import Mathlib

set_option maxRecDepth 100000

/-!
Shallow embedding of the yane2 NES emulator core (Rust) for specification
verification.

Modelling conventions, applied uniformly:
* `u8` / `u16` / `usize` values are `Nat`s.  Byte contents of the bus are
  forced into `0..255` by `Bus.read` / `Bus.write` (the Rust `ram : [u8; _]`
  type guarantee).
* Rust's unchecked `+=` / `-=` on `u16` / `usize` is a program error on
  overflow (panic when overflow checks are on, the default `cargo build`
  profile).  These sites are modelled as checked operations returning
  `Option`: `none` models the panic.  Where the source explicitly uses
  `wrapping_add` / `overflowing_add` / `wrapping_sub`, the model wraps with
  `% 2^16` (resp. `% 2^8`), matching defined wrapping.
* `src/src/cpu/mod.rs` is the authority for `clock` / `reset` /
  `disassemble` and the opcode table, `src/src/cpu/addr_modes.rs` for the
  addressing modes, `src/src/cpu/operations.rs` for the operations,
  `src/src/ines.rs` for the iNES parser.  The disassembler's formatted
  output strings are abstracted to the mnemonic (the claims under study
  concern the key set and termination, not the text).
-/

namespace Yane2

/-- Flat 64 KiB byte memory, `src/src/bus/mod.rs`. The `ram` function models
the `[u8; 65536]` array; reads force the u8 range. -/
structure Bus where
  ram : Nat → Nat

def Bus.new : Bus := ⟨fun _ => 0⟩

/-- `Bus::read`: every address is valid, returns the byte. -/
def Bus.read (bus : Bus) (addr : Nat) : Nat := bus.ram addr % 256

/-- `Bus::write`: stores a byte (u8 content modelled by `% 256`). -/
def Bus.write (bus : Bus) (addr v : Nat) : Bus :=
  ⟨fun a => if a = addr then v % 256 else bus.ram a⟩

/-- The 8 status bits of the `bitflags! Flags` set in `src/src/cpu/mod.rs`,
one Bool per bit (C, Z, I, D, B, U, V, N). -/
structure Flags where
  c : Bool
  z : Bool
  i : Bool
  d : Bool
  b : Bool
  u : Bool
  v : Bool
  n : Bool

def Flags.empty : Flags := ⟨false, false, false, false, false, false, false, false⟩

/-- `Flags::U` as a full status byte (used by `reset`). -/
def Flags.uOnly : Flags := ⟨false, false, false, false, false, true, false, false⟩

inductive Flag
  | C | Z | I | D | B | U | V | N

/-- The twelve addressing-mode tags (`Kind` in `src/src/cpu/addr_modes.rs`). -/
inductive Kind
  | IMP | IMM | ZP0 | ZPX | ZPY | REL | ABS | ABX | ABY | IND | IZX | IZY
deriving DecidableEq

/-- Operation tags for the operations implemented in
`src/src/cpu/operations.rs`. -/
inductive OpK
  | XXX | NOP | LDA | LDX | LDY | STA | STX | STY | ADC | CLC | DEX | DEY | BNE
deriving DecidableEq

/-- An opcode-table entry (`struct Opcode` in `src/src/cpu/mod.rs`). -/
structure Opcode where
  name : String
  addrMode : Kind
  op : OpK
  cycles : Nat

/-- CPU state (`struct CpuCore` in `src/src/cpu/mod.rs`), bus included. -/
structure CpuCore where
  a : Nat
  x : Nat
  y : Nat
  sp : Nat
  pc : Nat
  status : Flags
  fetched : Nat
  temp : Nat
  addr_abs : Nat
  addr_rel : Nat
  opcode : Nat
  cycles : Nat
  clock_count : Nat
  bus : Bus

/-- `CpuCore::new`: zeroed registers, empty status. -/
def CpuCore.new (bus : Bus) : CpuCore :=
  ⟨0, 0, 0, 0, 0, Flags.empty, 0, 0, 0, 0, 0, 0, 0, bus⟩

def CpuCore.read (cpu : CpuCore) (addr : Nat) : Nat := cpu.bus.read addr

def CpuCore.write (cpu : CpuCore) (addr v : Nat) : CpuCore :=
  { cpu with bus := cpu.bus.write addr v }

def CpuCore.getFlag (cpu : CpuCore) : Flag → Bool
  | .C => cpu.status.c
  | .Z => cpu.status.z
  | .I => cpu.status.i
  | .D => cpu.status.d
  | .B => cpu.status.b
  | .U => cpu.status.u
  | .V => cpu.status.v
  | .N => cpu.status.n

def CpuCore.setFlag (cpu : CpuCore) (f : Flag) (onOff : Bool) : CpuCore :=
  match f with
  | .C => { cpu with status := { cpu.status with c := onOff } }
  | .Z => { cpu with status := { cpu.status with z := onOff } }
  | .I => { cpu with status := { cpu.status with i := onOff } }
  | .D => { cpu with status := { cpu.status with d := onOff } }
  | .B => { cpu with status := { cpu.status with b := onOff } }
  | .U => { cpu with status := { cpu.status with u := onOff } }
  | .V => { cpu with status := { cpu.status with v := onOff } }
  | .N => { cpu with status := { cpu.status with n := onOff } }

/-- The synthetic fallback entry `opcode!(XXX, IMP, 0)`. -/
def xxxOpcode : Opcode := ⟨"XXX", .IMP, .XXX, 0⟩

/-- The opcode table built in `Cpu::new` (`src/src/cpu/mod.rs` lines
182-262), entry for entry. -/
def opcodes (n : Nat) : Option Opcode :=
  match n with
  | 0x04 => some ⟨"NOP", .IMP, .NOP, 0⟩
  | 0x0C => some ⟨"NOP", .IMP, .NOP, 0⟩
  | 0x14 => some ⟨"NOP", .IMP, .NOP, 0⟩
  | 0x1A => some ⟨"NOP", .IMP, .NOP, 0⟩
  | 0x1C => some ⟨"NOP", .IMP, .NOP, 0⟩
  | 0x34 => some ⟨"NOP", .IMP, .NOP, 0⟩
  | 0x3A => some ⟨"NOP", .IMP, .NOP, 0⟩
  | 0x3C => some ⟨"NOP", .IMP, .NOP, 0⟩
  | 0x44 => some ⟨"NOP", .IMP, .NOP, 0⟩
  | 0x54 => some ⟨"NOP", .IMP, .NOP, 0⟩
  | 0x5A => some ⟨"NOP", .IMP, .NOP, 0⟩
  | 0x5C => some ⟨"NOP", .IMP, .NOP, 0⟩
  | 0x64 => some ⟨"NOP", .IMP, .NOP, 0⟩
  | 0x74 => some ⟨"NOP", .IMP, .NOP, 0⟩
  | 0x7A => some ⟨"NOP", .IMP, .NOP, 0⟩
  | 0x7C => some ⟨"NOP", .IMP, .NOP, 0⟩
  | 0x80 => some ⟨"NOP", .IMP, .NOP, 0⟩
  | 0x82 => some ⟨"NOP", .IMP, .NOP, 0⟩
  | 0x89 => some ⟨"NOP", .IMP, .NOP, 0⟩
  | 0xC2 => some ⟨"NOP", .IMP, .NOP, 0⟩
  | 0xD4 => some ⟨"NOP", .IMP, .NOP, 0⟩
  | 0xDA => some ⟨"NOP", .IMP, .NOP, 0⟩
  | 0xDC => some ⟨"NOP", .IMP, .NOP, 0⟩
  | 0xE2 => some ⟨"NOP", .IMP, .NOP, 0⟩
  | 0xEA => some ⟨"NOP", .IMP, .NOP, 0⟩
  | 0xF4 => some ⟨"NOP", .IMP, .NOP, 0⟩
  | 0xFA => some ⟨"NOP", .IMP, .NOP, 0⟩
  | 0xFC => some ⟨"NOP", .IMP, .NOP, 0⟩
  | 0xA1 => some ⟨"LDA", .IZX, .LDA, 6⟩
  | 0xA5 => some ⟨"LDA", .ZP0, .LDA, 3⟩
  | 0xA9 => some ⟨"LDA", .IMM, .LDA, 2⟩
  | 0xAD => some ⟨"LDA", .ABS, .LDA, 4⟩
  | 0xB1 => some ⟨"LDA", .IZY, .LDA, 5⟩
  | 0xB5 => some ⟨"LDA", .ZPX, .LDA, 4⟩
  | 0xB9 => some ⟨"LDA", .ABY, .LDA, 4⟩
  | 0xBD => some ⟨"LDA", .ABX, .LDA, 4⟩
  | 0xA2 => some ⟨"LDX", .IMM, .LDX, 2⟩
  | 0xA6 => some ⟨"LDX", .ZP0, .LDX, 3⟩
  | 0xAE => some ⟨"LDX", .ABS, .LDX, 4⟩
  | 0xB6 => some ⟨"LDX", .ZPY, .LDX, 4⟩
  | 0xBE => some ⟨"LDX", .ABY, .LDX, 4⟩
  | 0xA0 => some ⟨"LDY", .IMM, .LDY, 2⟩
  | 0xA4 => some ⟨"LDY", .ZP0, .LDY, 3⟩
  | 0xAC => some ⟨"LDY", .ABS, .LDY, 4⟩
  | 0xB4 => some ⟨"LDY", .ZPX, .LDY, 4⟩
  | 0xBC => some ⟨"LDY", .ABX, .LDY, 4⟩
  | 0x81 => some ⟨"STA", .IZX, .STA, 6⟩
  | 0x85 => some ⟨"STA", .ZP0, .STA, 3⟩
  | 0x8D => some ⟨"STA", .ABS, .STA, 4⟩
  | 0x91 => some ⟨"STA", .IZY, .STA, 6⟩
  | 0x95 => some ⟨"STA", .ZPX, .STA, 4⟩
  | 0x99 => some ⟨"STA", .ABY, .STA, 5⟩
  | 0x9D => some ⟨"STA", .ABX, .STA, 5⟩
  | 0x86 => some ⟨"STX", .ZP0, .STX, 3⟩
  | 0x8E => some ⟨"STX", .ABS, .STX, 4⟩
  | 0x96 => some ⟨"STX", .ZPY, .STX, 4⟩
  | 0x84 => some ⟨"STY", .ZP0, .STY, 3⟩
  | 0x8C => some ⟨"STY", .ABS, .STY, 4⟩
  | 0x94 => some ⟨"STY", .ZPX, .STY, 4⟩
  | 0x61 => some ⟨"ADC", .IZX, .ADC, 6⟩
  | 0x65 => some ⟨"ADC", .ZP0, .ADC, 3⟩
  | 0x69 => some ⟨"ADC", .IMM, .ADC, 2⟩
  | 0x6D => some ⟨"ADC", .ABS, .ADC, 4⟩
  | 0x71 => some ⟨"ADC", .IZY, .ADC, 5⟩
  | 0x75 => some ⟨"ADC", .ZPX, .ADC, 4⟩
  | 0x79 => some ⟨"ADC", .ABY, .ADC, 4⟩
  | 0x7D => some ⟨"ADC", .ABX, .ADC, 4⟩
  | 0x18 => some ⟨"CLC", .IMP, .CLC, 2⟩
  | 0xCA => some ⟨"DEX", .IMP, .DEX, 2⟩
  | 0x88 => some ⟨"DEY", .IMP, .DEY, 2⟩
  | 0xD0 => some ⟨"BNE", .REL, .BNE, 3⟩
  | _ => none

/-- `HashMap::get` with the `XXX` fallback used at every lookup site. -/
def lookupOpcode (n : Nat) : Opcode := (opcodes n).getD xxxOpcode

/-- `CpuCore::fetch`: for non-IMP modes re-read the operand byte at
`addr_abs` into `fetched`. -/
def CpuCore.fetch (cpu : CpuCore) : CpuCore :=
  match (lookupOpcode cpu.opcode).addrMode with
  | .IMP => cpu
  | _ => { cpu with fetched := cpu.read cpu.addr_abs }

/-- Checked `cpu.pc += 1` on u16: `none` models the overflow panic at
`pc = 0xFFFF`. -/
def pcInc (cpu : CpuCore) : Option CpuCore :=
  if cpu.pc + 1 ≤ 0xFFFF then some { cpu with pc := cpu.pc + 1 } else none

/-- The addressing modes of `src/src/cpu/addr_modes.rs`.  Returns the state
and the extra-cycle flag (0 or 1); `none` models a `pc += 1` overflow
panic. -/
def addrRun (k : Kind) (cpu : CpuCore) : Option (CpuCore × Nat) :=
  match k with
  | .IMP => some ({ cpu with fetched := cpu.a }, 0)
  | .IMM =>
    let cpu := { cpu with addr_abs := cpu.pc }
    (pcInc cpu).map (fun cpu => (cpu, 0))
  | .ZP0 =>
    let cpu := { cpu with addr_abs := cpu.read cpu.pc }
    (pcInc cpu).map (fun cpu => (cpu, 0))
  | .ZPX =>
    let cpu := { cpu with addr_abs := cpu.read cpu.pc }
    let cpu := { cpu with addr_abs := (cpu.addr_abs + cpu.x) % 65536 }
    let cpu := { cpu with addr_abs := cpu.addr_abs &&& 0x00FF }
    (pcInc cpu).map (fun cpu => (cpu, 0))
  | .ZPY =>
    let cpu := { cpu with addr_abs := cpu.read cpu.pc }
    let cpu := { cpu with addr_abs := (cpu.addr_abs + cpu.y) % 65536 }
    let cpu := { cpu with addr_abs := cpu.addr_abs &&& 0x00FF }
    (pcInc cpu).map (fun cpu => (cpu, 0))
  | .REL =>
    let cpu := { cpu with addr_rel := cpu.read cpu.pc }
    (pcInc cpu).map (fun cpu =>
      if cpu.addr_rel &&& 0x0080 ≠ 0 then
        ({ cpu with addr_rel := cpu.addr_rel ||| 0xFF00 }, 0)
      else (cpu, 0))
  | .ABS =>
    let low := cpu.read cpu.pc
    (pcInc cpu).bind (fun cpu =>
      let high := cpu.read cpu.pc
      (pcInc cpu).map (fun cpu =>
        ({ cpu with addr_abs := (high <<< 8) ||| low }, 0)))
  | .ABX =>
    let low := cpu.read cpu.pc
    (pcInc cpu).bind (fun cpu =>
      let high := cpu.read cpu.pc
      (pcInc cpu).map (fun cpu =>
        let cpu := { cpu with addr_abs := (high <<< 8) ||| low }
        let cpu := { cpu with addr_abs := (cpu.addr_abs + cpu.x) % 65536 }
        let extra := cpu.addr_abs &&& 0xFF00 ≠ high <<< 8
        (cpu, if extra then 1 else 0)))
  | .ABY =>
    let low := cpu.read cpu.pc
    (pcInc cpu).bind (fun cpu =>
      let high := cpu.read cpu.pc
      (pcInc cpu).map (fun cpu =>
        let cpu := { cpu with addr_abs := (high <<< 8) ||| low }
        let cpu := { cpu with addr_abs := (cpu.addr_abs + cpu.y) % 65536 }
        let extra := cpu.addr_abs &&& 0xFF00 ≠ high <<< 8
        (cpu, if extra then 1 else 0)))
  | .IND =>
    let ptrLow := cpu.read cpu.pc
    (pcInc cpu).bind (fun cpu =>
      let ptrHigh := cpu.read cpu.pc
      (pcInc cpu).map (fun cpu =>
        let ptr := (ptrHigh <<< 8) ||| ptrLow
        if ptrLow = 0x00FF then
          let low := cpu.read ptr
          let high := cpu.read (ptr &&& 0xFF00)
          ({ cpu with addr_abs := (high <<< 8) ||| low }, 0)
        else
          let low := cpu.read ptr
          let high := cpu.read (ptr + 1)
          ({ cpu with addr_abs := (high <<< 8) ||| low }, 0)))
  | .IZX =>
    let ptr := cpu.read cpu.pc
    (pcInc cpu).map (fun cpu =>
      let ptrX := ptr + cpu.x
      let low := cpu.read ptrX
      let high := cpu.read (ptrX + 1)
      ({ cpu with addr_abs := (high <<< 8) ||| low }, 0))
  | .IZY =>
    let ptr := cpu.read cpu.pc
    (pcInc cpu).map (fun cpu =>
      let low := cpu.read ptr
      let high := cpu.read (ptr + 1)
      let cpu := { cpu with addr_abs := (high <<< 8) ||| low }
      let cpu := { cpu with addr_abs := (cpu.addr_abs + cpu.y) % 65536 }
      let extra := cpu.addr_abs &&& 0xFF00 ≠ high <<< 8
      (cpu, if extra then 1 else 0))

/-- The operations of `src/src/cpu/operations.rs`.  Returns the state and
the page-cross-sensitivity flag (0 or 1). -/
def opRun (k : OpK) (cpu : CpuCore) : CpuCore × Nat :=
  match k with
  | .XXX => (cpu, 0)
  | .LDA =>
    let cpu := cpu.fetch
    let a := cpu.fetched
    let cpu := { cpu with a := a }
    let cpu := cpu.setFlag .Z (a == 0x00)
    let cpu := cpu.setFlag .N ((a &&& 0x80) != 0)
    (cpu, 1)
  | .LDX =>
    let cpu := cpu.fetch
    let x := cpu.fetched
    let cpu := { cpu with x := x }
    let cpu := cpu.setFlag .Z (x == 0x00)
    let cpu := cpu.setFlag .N ((x &&& 0x80) != 0)
    (cpu, 1)
  | .LDY =>
    let cpu := cpu.fetch
    let y := cpu.fetched
    let cpu := { cpu with y := y }
    let cpu := cpu.setFlag .Z (y == 0x00)
    let cpu := cpu.setFlag .N ((y &&& 0x80) != 0)
    (cpu, 1)
  | .STA => (cpu.write cpu.addr_abs cpu.a, 0)
  | .STX => (cpu.write cpu.addr_abs cpu.x, 0)
  | .STY => (cpu.write cpu.addr_abs cpu.y, 0)
  | .CLC => (cpu.setFlag .C false, 0)
  | .ADC =>
    let cpu := cpu.fetch
    let fetched := cpu.fetched
    let a := cpu.a
    let carry := if cpu.getFlag .C then 1 else 0
    let temp := a + fetched + carry
    let cpu := cpu.setFlag .C (temp > 255)
    let cpu := cpu.setFlag .Z ((temp &&& 0x00FF) == 0)
    let v := (65535 ^^^ (a ^^^ fetched)) &&& (a ^^^ temp)
    let cpu := cpu.setFlag .V ((v &&& 0x0080) != 0)
    let cpu := cpu.setFlag .N ((temp &&& 0x0080) != 0)
    let cpu := { cpu with a := temp &&& 0x00FF }
    (cpu, 1)
  | .DEX =>
    let cpu := { cpu with x := (cpu.x + 255) % 256 }
    let cpu := cpu.setFlag .Z (cpu.x == 0x00)
    let cpu := cpu.setFlag .N ((cpu.x &&& 0x80) != 0)
    (cpu, 0)
  | .DEY =>
    let cpu := { cpu with y := (cpu.y + 255) % 256 }
    let cpu := cpu.setFlag .Z (cpu.y == 0x00)
    let cpu := cpu.setFlag .N ((cpu.y &&& 0x80) != 0)
    (cpu, 0)
  | .BNE =>
    if !(cpu.getFlag .Z) then
      let cpu := { cpu with cycles := cpu.cycles + 1 }
      let cpu := { cpu with addr_abs := (cpu.pc + cpu.addr_rel) % 65536 }
      let cpu :=
        if cpu.addr_abs &&& 0xFF00 ≠ cpu.pc &&& 0xFF00 then
          { cpu with cycles := cpu.cycles + 1 }
        else cpu
      ({ cpu with pc := cpu.addr_abs }, 0)
    else (cpu, 0)
  | .NOP =>
    match cpu.opcode with
    | 0x1C | 0x3C | 0x5C | 0x7C | 0xDC | 0xFC => (cpu, 1)
    | _ => (cpu, 0)

/-- `Cpu::clock` (`src/src/cpu/mod.rs` lines 270-305).  `none` models a
panic: either `pc += 1` overflowing u16 or `cycles -= 1` underflowing
usize. -/
def clock (cpu : CpuCore) : Option CpuCore :=
  let finish : CpuCore → Option CpuCore := fun cpu =>
    if cpu.cycles = 0 then none
    else some { cpu with
      cycles := cpu.cycles - 1
      clock_count := (cpu.clock_count + 1) % 2 ^ 64 }
  if cpu.cycles = 0 then
    let opcode := cpu.read cpu.pc
    let cpu := { cpu with opcode := opcode }
    let cpu := cpu.setFlag .U true
    (pcInc cpu).bind (fun cpu =>
      let e := lookupOpcode opcode
      let cpu := { cpu with cycles := e.cycles }
      (addrRun e.addrMode cpu).bind (fun p =>
        let (cpu, extraCycle2) := opRun e.op p.1
        let cpu := { cpu with cycles := cpu.cycles + (p.2 &&& extraCycle2) }
        finish cpu))
  else finish cpu

/-- `CpuCore::reset`. -/
def CpuCore.reset (cpu : CpuCore) : CpuCore :=
  let cpu := { cpu with addr_abs := 0xFFFC }
  let low := cpu.read cpu.addr_abs
  let high := cpu.read (cpu.addr_abs + 1)
  { cpu with
    pc := (high <<< 8) ||| low
    a := 0x00
    x := 0x00
    y := 0x00
    sp := 0xFD
    status := Flags.uOnly
    addr_rel := 0x0000
    addr_abs := 0x0000
    fetched := 0x00
    cycles := 8 }

/-- `CpuCore::complete`. -/
def CpuCore.complete (cpu : CpuCore) : Bool := cpu.cycles == 0

/-- `n` consecutive `clock` ticks, propagating a panic. -/
def clockN : Nat → CpuCore → Option CpuCore
  | 0, cpu => some cpu
  | n + 1, cpu => (clock cpu).bind (clockN n)

/-- Tick until `pc = target` at an instruction boundary (`complete`),
with fuel; `none` on panic or fuel exhaustion. -/
def runUntil (target : Nat) : Nat → CpuCore → Option CpuCore
  | 0, _ => none
  | fuel + 1, cpu =>
    if cpu.pc = target ∧ cpu.cycles = 0 then some cpu
    else (clock cpu).bind (runUntil target fuel)

/-- One `Cpu::disassemble` loop iteration's operand walk, after the opcode
byte: given the address just past the opcode, return the address after the
operand bytes of addressing mode `k`.  The operand reads themselves are
total; what can fail is the checked `addr += 1` on u16 (and, for REL, the
`addr + value as u16` computed for the formatted target), so `none` models
that overflow panic. -/
def disasmStep (bus : Bus) (addr1 : Nat) (k : Kind) : Option Nat :=
  match k with
  | .IMP => some addr1
  | .IMM | .ZP0 | .ZPX | .ZPY | .IZX | .IZY =>
    if addr1 + 1 ≤ 0xFFFF then some (addr1 + 1) else none
  | .REL =>
    let value := bus.read addr1
    if addr1 + 1 ≤ 0xFFFF then
      if (addr1 + 1) + value ≤ 0xFFFF then some (addr1 + 1) else none
    else none
  | .ABS | .ABX | .ABY | .IND =>
    if addr1 + 1 ≤ 0xFFFF then
      if addr1 + 2 ≤ 0xFFFF then some (addr1 + 2) else none
    else none

/-- The `while addr <= stop_addr` loop of `Cpu::disassemble`
(`src/src/cpu/mod.rs` lines 315-414).  The emitted line text is abstracted
to the mnemonic; the key (`line_addr`) and the walk are exact.  The fuel
only bounds recursion: the loop runs at most 65536 iterations (`addr`
strictly increases and stays ≤ `stop ≤ 0xFFFF`), so with fuel 65537
exhaustion is unreachable. -/
def disasmLoop (bus : Bus) (stop : Nat) :
    Nat → Nat → List (Nat × String) → Option (List (Nat × String))
  | 0, _, _ => none
  | fuel + 1, addr, lines =>
    if addr ≤ stop then
      let opcode := bus.read addr
      let e := lookupOpcode opcode
      if addr = 0xFFFF then some lines
      else
        match disasmStep bus (addr + 1) e.addrMode with
        | none => none
        | some addr2 => disasmLoop bus stop fuel addr2 (lines ++ [(addr, e.name)])
    else some lines

/-- `Cpu::disassemble`: walk `[start, stop]`, one `(address, line)` entry
per decoded instruction, in address order (the `BTreeMap` is modelled by
the sorted association list the walk produces). -/
def disassemble (bus : Bus) (startAddr stopAddr : Nat) : Option (List (Nat × String)) :=
  disasmLoop bus stopAddr 65537 startAddr []

/-! The iNES container parser, `src/src/ines.rs`. -/

inductive NametableArrangement
  | Vertical | Horizontal
deriving DecidableEq

inductive TvSystem
  | Ntsc | Pal
deriving DecidableEq

inductive TvSystemExt
  | Legacy (tv : TvSystem) | Dual
deriving DecidableEq

structure Header where
  prg_rom_size : Nat
  chr_rom_size : Nat
  mapper_number : Nat
  nametable_arrangement : NametableArrangement
  battery_backed_prg_ram : Bool
  trainer_512 : Bool
  alternative_nametable_layout : Bool
  vs_unisystem : Bool
  playchoice_10 : Bool
  nes_2_0 : Bool
  prg_ram_size : Nat
  tv_system : TvSystem
  tv_system_ext : TvSystemExt
  high_prg_ram : Bool
  bus_conflicts : Bool
deriving DecidableEq

def isBitSet (value bit : Nat) : Bool := (value &&& (1 <<< bit)) != 0

/-- `Header::new` on the 16 header bytes; `Except.error` models the
`ensure!` failures with their messages. -/
def Header.new (header : List Nat) : Except String Header :=
  let hd := fun i => header.getD i 0
  if hd 0 ≠ 0x4e then .error "Invalid magic word 0"
  else if hd 1 ≠ 0x45 then .error "Invalid magic word 1"
  else if hd 2 ≠ 0x53 then .error "Invalid magic word 2"
  else if hd 3 ≠ 0x1a then .error "Invalid magic word 3"
  else
    let prg_rom_size := hd 4 * 16 * 1024
    let chr_rom_size := hd 5 * 8 * 1024
    let flag6 := hd 6
    let low_mapper_number := flag6 >>> 4
    let nametable_arrangement :=
      if isBitSet flag6 0 then NametableArrangement.Horizontal
      else NametableArrangement.Vertical
    let battery_backed_prg_ram := isBitSet flag6 1
    let trainer_512 := isBitSet flag6 2
    let alternative_nametable_layout := isBitSet flag6 3
    let flag7 := hd 7
    let high_mapper_number := flag7 >>> 4
    let vs_unisystem := isBitSet flag7 0
    let playchoice_10 := isBitSet flag7 1
    let nes_2_0 := (flag7 >>> 2) &&& 0b11 == 2
    if playchoice_10 then .error "Playchoice detected, not supported"
    else if nes_2_0 then .error "Nes 2.0 format detected. Not supported"
    else
      let mapper_number := low_mapper_number ||| (high_mapper_number <<< 4)
      let prg_ram_size := (if hd 8 = 0 then 1 else hd 8) * 8 * 1024
      let flag9 := hd 9
      let tv_system := if isBitSet flag9 0 then TvSystem.Ntsc else TvSystem.Pal
      if (flag9 >>> 1) &&& 0b01111111 ≠ 0 then
        .error "invalid flag9, expecting zeroes"
      else
        let flag10 := hd 10
        let tv_system_ext :=
          match flag10 &&& 0b11 with
          | 0 => TvSystemExt.Legacy TvSystem.Ntsc
          | 2 => TvSystemExt.Legacy TvSystem.Pal
          | _ => TvSystemExt.Dual
        let high_prg_ram := isBitSet flag10 4
        let bus_conflicts := isBitSet flag10 5
        .ok ⟨prg_rom_size, chr_rom_size, mapper_number, nametable_arrangement,
          battery_backed_prg_ram, trainer_512, alternative_nametable_layout,
          vs_unisystem, playchoice_10, nes_2_0, prg_ram_size, tv_system,
          tv_system_ext, high_prg_ram, bus_conflicts⟩

structure INes where
  header : Header
  trainer : Option (List Nat)
  prg_rom : List Nat
  chr_rom : List Nat

/-- `INes::new` on the file's bytes (the `fs::read` I/O layer is outside
the model).  The outer `Option` models panics: `none` where the Rust code
indexes `&bytes[0..512]` with fewer than 512 bytes left, or calls
`Vec::split_off(at)` with `at > len`.  `some (.error e)` is a returned
parse error, `some (.ok v)` success.

In the source, the trainer is built with
`header.trainer_512.then_some({ ... copy_from_slice(&bytes[0..512]);
bytes = bytes.split_off(512); ... })`; Rust's `then_some` takes a value,
so that block argument is evaluated eagerly: the 512-byte slice (and its
out-of-bounds panic) and the consumption of 512 body bytes happen
unconditionally, whatever the trainer flag — only whether the slice is
kept as `Some(trainer)` depends on the flag. -/
def INes.new (bytes : List Nat) : Option (Except String INes) :=
  if bytes.length > 16 then
    let headerBytes := bytes.take 16
    let bytes := bytes.drop 16
    match Header.new headerBytes with
    | .error e => some (.error e)
    | .ok header =>
      if bytes.length < 512 then none
      else
        let trainerBytes := bytes.take 512
        let bytes := bytes.drop 512
        let trainer := if header.trainer_512 then some trainerBytes else none
        if header.prg_rom_size > bytes.length then none
        else
          let prg_rom := bytes.take header.prg_rom_size
          let bytes := bytes.drop header.prg_rom_size
          if header.chr_rom_size > bytes.length then none
          else some (.ok ⟨header, trainer, prg_rom, bytes.take header.chr_rom_size⟩)
  else some (.error "Missing iNes header")

/-! Concrete fixtures used by the theorems below. -/

/-- Write a list of bytes to consecutive addresses (the loading loop of
`test0` in `src/src/main.rs`). -/
def loadProgram (bus : Bus) : Nat → List Nat → Bus
  | _, [] => bus
  | addr, byte :: rest => loadProgram (bus.write addr byte) (addr + 1) rest

/-- The demo program bytes of `test0` (`src/src/main.rs` lines 151-153). -/
def test0Program : List Nat :=
  [0xA2, 0x0A, 0x8E, 0x00, 0x00, 0xA2, 0x03, 0x8E, 0x01, 0x00, 0xAC, 0x00, 0x00,
   0xA9, 0x00, 0x18, 0x6D, 0x01, 0x00, 0x88, 0xD0, 0xFA, 0x8D, 0x02, 0x00,
   0xEA, 0xEA, 0xEA]

/-- The bus `test0` builds: zeroed RAM, the program at `0x8000`, reset
vector `0xFFFC/0xFFFD = 00 80`. -/
def test0Bus : Bus :=
  let bus := loadProgram Bus.new 0x8000 test0Program
  let bus := bus.write 0xFFFC 0x00
  bus.write 0xFFFD 0x80

/-- The CPU `test0` hands back: fresh core on `test0Bus`, then `reset()`. -/
def test0Cpu : CpuCore := (CpuCore.new test0Bus).reset

/-- Zeroed RAM with a `NOP` (0xEA, registered with base cycle count 0) at
the reset target `0x8000`. -/
def c1BusNop : Bus :=
  ((Bus.new.write 0x8000 0xEA).write 0xFFFC 0x00).write 0xFFFD 0x80

/-- Zeroed RAM with reset vector `0xFFFF`, so `PC = 0xFFFF` after reset. -/
def c1BusFFFF : Bus := (Bus.new.write 0xFFFC 0xFF).write 0xFFFD 0xFF

/-- Zeroed RAM with reset vector `0x8000`; the byte at `0x8000` is `0x00`,
an opcode with no descriptor in the table. -/
def c2Bus : Bus := (Bus.new.write 0xFFFC 0x00).write 0xFFFD 0x80

/-- Memory holding `BNE +0x7F` at `0x80FD`, and a CPU at an instruction
boundary there with flag Z clear: the branch target `0x817E` is on a
different page than the post-operand `PC = 0x80FF`. -/
def c5Bus : Bus := (Bus.new.write 0x80FD 0xD0).write 0x80FE 0x7F

def c5Cpu : CpuCore :=
  ⟨0, 0, 0, 0, 0x80FD, Flags.empty, 0, 0, 0, 0, 0, 0, 0, c5Bus⟩

/-- Memory for `LDA ($FF,X)` with `X = 1`: the operand byte is `0xFF`, so
`read(PC) + X = 0x100` overflows 8 bits.  Zero page holds `0x5678`
little-endian at `0x00/0x01` (the wrapped pointer location); `0x100/0x101`
hold `0x1234` (the unwrapped location). -/
def c6BusIzx : Bus :=
  (((((((Bus.new.write 0x9000 0xA1).write 0x9001 0xFF).write 0x0100 0x34).write
    0x0101 0x12).write 0x0000 0x78).write 0x0001 0x56).write
    0x1234 0xAA).write 0x5678 0xBB

def c6CpuIzx : CpuCore :=
  ⟨0, 1, 0, 0, 0x9000, Flags.empty, 0, 0, 0, 0, 0, 0, 0, c6BusIzx⟩

/-- Memory for `LDA ($FF),Y` with `Y = 0`: the zero-page pointer byte is
`0xFF`, so the high byte of the base address would wrap to `0x00` on real
hardware.  `0xFF/0x00` hold `0x9900` little-endian (wrapped); `0xFF/0x100`
hold `0x4000` (unwrapped). -/
def c6BusIzy : Bus :=
  (((((Bus.new.write 0x9000 0xB1).write 0x9001 0xFF).write 0x00FF 0x00).write
    0x0100 0x40).write 0x0000 0x99).write 0x4000 0x77

def c6CpuIzy : CpuCore :=
  ⟨0, 0, 0, 0, 0x9000, Flags.empty, 0, 0, 0, 0, 0, 0, 0, c6BusIzy⟩

/-- `ADC $00` at `0x8000` with `A = 0x7F`, carry clear, `mem[0x00] = 0x01`
(the spec's ADC overflow scenario). -/
def c4Bus : Bus :=
  ((Bus.new.write 0x8000 0x65).write 0x8001 0x00).write 0x0000 0x01

def c4Cpu : CpuCore :=
  ⟨0x7F, 0, 0, 0, 0x8000, Flags.empty, 0, 0, 0, 0, 0, 0, 0, c4Bus⟩

/-- An IND pointer operand `0x30FF` at `PC = 0x9000`, with
`mem[0x30FF] = 0x40` and `mem[0x3000] = 0x80` (the spec's indirect-JMP
page-wrap scenario). -/
def c7Bus : Bus :=
  (((Bus.new.write 0x9000 0xFF).write 0x9001 0x30).write 0x30FF 0x40).write
    0x3000 0x80

def c7Cpu : CpuCore :=
  ⟨0, 0, 0, 0, 0x9000, Flags.empty, 0, 0, 0, 0, 0, 0, 0, c7Bus⟩

/-- A 616-byte file whose valid header (no trainer flag) declares 16 KiB
of PRG-ROM but whose body holds only 600 bytes: the eager 512-byte
trainer-block consumption succeeds, leaving 88 bytes, far short of the
declared PRG-ROM. -/
def c8FilePrg : List Nat :=
  [0x4E, 0x45, 0x53, 0x1A, 0x01, 0x00, 0x00, 0x00, 0x00, 0x00, 0x00, 0x00,
   0x00, 0x00, 0x00, 0x00] ++ List.replicate 600 0

/-- A 17-byte file whose valid header sets the trainer flag (flag 6 bit 2)
but whose body holds a single byte, far short of the 512-byte trainer. -/
def c8FileTrainer : List Nat :=
  [0x4E, 0x45, 0x53, 0x1A, 0x00, 0x00, 0x04, 0x00, 0x00, 0x00, 0x00, 0x00,
   0x00, 0x00, 0x00, 0x00, 0x00]

/-- Zeroed RAM with `LDA #imm` (0xA9, a 2-byte instruction) at `0xFFFE`,
so its operand byte sits at `0xFFFF` and the walk must step past the end
of the address space. -/
def c9Bus : Bus := Bus.new.write 0xFFFE 0xA9

/-! Helper lemmas shared by the claim theorems. -/

theorem Bus.read_lt (bus : Bus) (addr : Nat) : bus.read addr < 256 :=
  Nat.mod_lt _ (by norm_num)

theorem lor_hi_lo (hi lo : Nat) (h : lo < 256) : (hi <<< 8) ||| lo = 256 * hi + lo := by
  rw [Nat.shiftLeft_eq]
  apply Nat.eq_of_testBit_eq
  intro i
  have h256 : (256 : Nat) = 2 ^ 8 := by norm_num
  have hb : lo < 2 ^ 8 := by omega
  have hml : hi * 2 ^ 8 = 2 ^ 8 * hi + 0 := by ring
  rw [Nat.testBit_lor, h256, hml, Nat.testBit_mul_pow_two_add hi (by norm_num) i,
    Nat.testBit_mul_pow_two_add hi hb i]
  rcases Nat.lt_or_ge i 8 with h8 | h8
  · simp [h8]
  · have hfalse : lo.testBit i = false := Nat.testBit_lt_two_pow (by
      calc lo < 2 ^ 8 := hb
      _ ≤ 2 ^ i := Nat.pow_le_pow_right (by norm_num) h8)
    simp [Nat.not_lt.mpr h8, hfalse]

theorem disasmLoop_keys (bus : Bus) (stop : Nat) :
    ∀ fuel addr lines m, (∀ p ∈ lines, p.1 ≠ 0xFFFF) →
      disasmLoop bus stop fuel addr lines = some m → ∀ p ∈ m, p.1 ≠ 0xFFFF := by
  intro fuel
  induction fuel with
  | zero => intro addr lines m _ h; simp [disasmLoop] at h
  | succ n ih =>
    intro addr lines m hl h
    rw [disasmLoop] at h
    by_cases hle : addr ≤ stop
    · rw [if_pos hle] at h
      by_cases hff : addr = 0xFFFF
      · rw [if_pos hff] at h
        cases h
        exact hl
      · rw [if_neg hff] at h
        cases hstep : disasmStep bus (addr + 1) (lookupOpcode (bus.read addr)).addrMode with
        | none => rw [hstep] at h; cases h
        | some addr2 =>
          rw [hstep] at h
          refine ih addr2 _ m ?_ h
          intro p hp
          rcases List.mem_append.mp hp with hp | hp
          · exact hl p hp
          · rcases List.mem_singleton.mp hp with rfl
            simpa using hff
    · rw [if_neg hle] at h
      cases h
      exact hl

/-! The claim theorems. -/

/-- Claim C1.  The claim states that `tick()`/`clock()` returns normally
and never panics on every reachable state, in particular when the fetched
descriptor has base cycle count 0 and when `PC = 0xFFFF`.  This theorem
refutes it at both named spots: from reset with a base-0 `NOP` (0xEA) at
the reset target, the ninth tick hits `cycles_remaining -= 1` with
`cycles_remaining = 0` (usize underflow); from reset with vector `0xFFFF`,
the ninth tick hits `pc += 1` at `PC = 0xFFFF` (u16 overflow).  Both are
arithmetic-overflow program errors (`none`), not normal returns. -/
theorem c1_tick_panics :
    clockN 9 ((CpuCore.new c1BusNop).reset) = none ∧
    clockN 9 ((CpuCore.new c1BusFFFF).reset) = none :=
  ⟨rfl, rfl⟩

/-- Claim C2.  The claim states that an undefined opcode consumes zero
additional cycles, leaves state unchanged except PC advancing one byte,
and leaves the CPU back in the between-instructions state after the tick.
This theorem refutes the last part: from reset with the undefined opcode
`0x00` at `0x8000`, the CPU is at an instruction boundary after 8 ticks
(`PC = 0x8000`, `cycles_remaining = 0`), and the ninth tick — the one
executing the undefined opcode through the 0-cycle `XXX` fallback — hits
the `cycles_remaining -= 1` underflow instead of completing. -/
theorem c2_undefined_opcode_not_noop :
    (clockN 8 ((CpuCore.new c2Bus).reset)).map (fun cpu => (cpu.pc, cpu.cycles)) =
      some (0x8000, 0) ∧
    clockN 9 ((CpuCore.new c2Bus).reset) = none :=
  ⟨by decide, rfl⟩

/-- Claim C3.  Running the `test0` demo program (loaded at `0x8000`, reset
vector `0x8000`) from `reset()` until `PC` first reaches `0x8019` (the
first `EA`) at an instruction boundary yields `RAM[0x0002] = 0x1E`,
`A = 0x1E`, `X = 0x03`, `Y = 0x00`, flag Z set, flag N clear. -/
theorem c3_test0_scenario :
    (runUntil 0x8019 150 test0Cpu).map (fun cpu =>
      (cpu.bus.read 0x0002, cpu.a, cpu.x, cpu.y, cpu.status.z, cpu.status.n)) =
      some (0x1E, 0x1E, 0x03, 0x00, true, false) := by
  decide

/-- Claim C4.  Executing `ADC` (here through opcode `0x65`, `ADC zp`,
the spec scenario's shape) from any CPU state at an instruction boundary
computes `t = A + fetched + C` in extended precision and sets
`C := t > 0xFF`, `Z := (t & 0xFF) == 0`,
`V := bit 7 of (~(A ^ fetched) & (A ^ t))`, `N := bit 7 of t`,
`A := t & 0xFF`, where `fetched` is the byte at the zero-page operand
address. -/
theorem c4_adc_semantics (bus : Bus) (a x y sp pc : Nat) (st : Flags)
    (fe te ab ar op cc : Nat)
    (hpc : pc + 2 ≤ 0xFFFF) (hop : bus.read pc = 0x65) :
    (clock ⟨a, x, y, sp, pc, st, fe, te, ab, ar, op, 0, cc, bus⟩).map
      (fun cpu => (cpu.a, cpu.status.c, cpu.status.z, cpu.status.v, cpu.status.n)) =
    some (
      let fetched := bus.read (bus.read (pc + 1))
      let t := a + fetched + (if st.c then 1 else 0)
      (t &&& 0xFF, decide (t > 0xFF), (t &&& 0xFF) == 0,
       (((65535 ^^^ (a ^^^ fetched)) &&& (a ^^^ t)) &&& 0x80) != 0,
       (t &&& 0x80) != 0)) := by
  have h1 : pc ≤ 65534 := by omega
  have h2 : pc ≤ 65533 := by omega
  have hl : lookupOpcode 0x65 = ⟨"ADC", .ZP0, .ADC, 3⟩ := rfl
  simp [clock, pcInc, addrRun, opRun, CpuCore.fetch, hop, hl, h1, h2,
    CpuCore.read, CpuCore.setFlag, CpuCore.getFlag]

/-- Witness for C4, the claim's own instance: `A = 0x7F`, carry clear,
`mem[0x00] = 0x01`, executing `ADC $00` yields `A = 0x80`, `N = 1`,
`V = 1`, `Z = 0`, `C = 0`. -/
theorem c4_adc_semantics_witness :
    (clock c4Cpu).map
      (fun cpu => (cpu.a, cpu.status.c, cpu.status.z, cpu.status.v, cpu.status.n)) =
      some (0x80, false, false, true, true) :=
  (c4_adc_semantics c4Bus 0x7F 0 0 0 0x8000 Flags.empty 0 0 0 0 0 0
    (by decide) (by decide)).trans (by decide)

/-- Claim C5.  The claim states a taken page-crossing `BNE` consumes
4 cycles in total (2 base + 1 taken + 1 page cross).  This theorem refutes
it: with Z clear and `BNE +0x7F` at `0x80FD` (target `0x817E`, crossing a
page), the table's base cycle count for `0xD0` is 3, so the first tick
leaves 4 cycles remaining — after 4 ticks the instruction is still not
complete, and only the fifth tick finishes it: 5 cycles in total, not 4. -/
theorem c5_bne_page_cross_cycles :
    (clock c5Cpu).map (fun cpu => (cpu.pc, cpu.cycles)) = some (0x817E, 4) ∧
    (clockN 4 c5Cpu).map (fun cpu => cpu.cycles) = some 1 ∧
    (clockN 5 c5Cpu).map (fun cpu => (cpu.pc, cpu.cycles)) = some (0x817E, 0) := by
  refine ⟨by decide, by decide, by decide⟩

/-- Claim C6.  The claim states IZX computes `zp = (read(PC) + X) mod 256`
and reads the effective address from `zp` and `(zp+1) mod 256`, and IZY
reads its base pointer from `zp = read(PC)` and `(zp+1) mod 256`, both
wrapping within page zero.  This theorem refutes it: for IZX with operand
`0xFF` and `X = 1` the code reads the pointer from `0x0100/0x0101`
(yielding `0x1234`, `A = mem[0x1234]`), not from the wrapped `0x00/0x01`
(which holds `0x5678`); for IZY with operand `0xFF` the code reads the
high byte from `0x0100` (yielding base `0x4000`), not from the wrapped
`0x0000` (which would yield `0x9900`). -/
theorem c6_izx_izy_pointer_no_wrap :
    (clock c6CpuIzx).map (fun cpu => (cpu.addr_abs, cpu.a)) = some (0x1234, 0xAA) ∧
    (clock c6CpuIzy).map (fun cpu => (cpu.addr_abs, cpu.a)) = some (0x4000, 0x77) := by
  constructor <;> decide

/-- Claim C7.  The IND addressing mode reads `ptr = read16_le(PC)` and
resolves `addr_abs` as the little-endian word with low byte `read(ptr)`
and high byte `read(ptr + 1)`, except — page-wrap bug, bit-exact — when
`lo(ptr) = 0xFF`, in which case the high byte is read from `ptr & 0xFF00`
instead of `ptr + 1`.  PC advances past the two operand bytes and no
extra cycle is reported. -/
theorem c7_ind_page_wrap (bus : Bus) (a x y sp pc : Nat) (st : Flags)
    (fe te ab ar op cy cc : Nat) (hpc : pc + 2 ≤ 0xFFFF) :
    (addrRun Kind.IND ⟨a, x, y, sp, pc, st, fe, te, ab, ar, op, cy, cc, bus⟩).map
      (fun p => (p.1.pc, p.1.addr_abs, p.2)) =
    some (
      let ptr := 256 * bus.read (pc + 1) + bus.read pc
      (pc + 2,
       if ptr % 256 = 0xFF then 256 * bus.read (ptr &&& 0xFF00) + bus.read ptr
       else 256 * bus.read (ptr + 1) + bus.read ptr,
       0)) := by
  have h1 : pc ≤ 65534 := by omega
  have h2 : pc ≤ 65533 := by omega
  have hlo : bus.read pc < 256 := Bus.read_lt bus pc
  have hptr : (bus.read (pc + 1) <<< 8) ||| bus.read pc
      = 256 * bus.read (pc + 1) + bus.read pc := lor_hi_lo _ _ hlo
  have hmod : (256 * bus.read (pc + 1) + bus.read pc) % 256 = bus.read pc := by
    omega
  simp [addrRun, pcInc, CpuCore.read, h1, h2, hptr, hmod]
  by_cases hc : bus.read pc = 255
  · simp [hc]
    exact lor_hi_lo _ _ (Bus.read_lt _ _)
  · simp [hc]
    exact lor_hi_lo _ _ (Bus.read_lt _ _)

/-- Witness for C7, the claim's own instance: pointer operand `0x30FF`
with `mem[0x30FF] = 0x40` and `mem[0x3000] = 0x80` resolves `addr_abs` to
`0x8040` (high byte from `0x3000`, not `0x3100`). -/
theorem c7_ind_page_wrap_witness :
    (addrRun Kind.IND c7Cpu).map (fun p => (p.1.pc, p.1.addr_abs, p.2)) =
      some (0x9002, 0x8040, 0) :=
  (c7_ind_page_wrap c7Bus 0 0 0 0 0x9000 Flags.empty 0 0 0 0 0 0 0
    (by decide)).trans (by decide)

/-- Claim C8.  The claim states that a file too short for its declared
sections makes parsing fail with a returned Truncated-style error rather
than succeeding or panicking.  This theorem refutes the "rather than
panicking" part at both panic sites: for a 616-byte file declaring 16 KiB
of PRG-ROM, the eagerly evaluated trainer block consumes 512 body bytes
and then `Vec::split_off(16384)` is called on an 88-byte vector (an
out-of-bounds panic, `none`); for a 17-byte file declaring a trainer,
`&bytes[0..512]` indexes a 1-byte slice (also a panic); neither returns
an error value. -/
theorem c8_truncated_panics :
    INes.new c8FilePrg = none ∧ INes.new c8FileTrainer = none :=
  ⟨rfl, rfl⟩

/-- Claim C9.  The claim states `disassemble(start, stop)` always
terminates normally, including when a multi-byte instruction's operand
bytes extend to or past `0xFFFF`.  This theorem refutes it: with
`LDA #imm` at `0xFFFE`, disassembling `[0xFFFE, 0xFFFF]` reads the
operand at `0xFFFF` and then executes `addr += 1` past `0xFFFF` — a u16
overflow program error (`none`) instead of a normal return. -/
theorem c9_disassemble_end_overflow :
    disassemble c9Bus 0xFFFE 0xFFFF = none := by
  decide

/-- Claim C10.  For every memory contents and start address, whenever
`disassemble(start, 0xFFFF)` returns, no entry of the returned map is
keyed by address `0xFFFF`: the walk breaks after reading the opcode byte
at `0xFFFF` without emitting a line for it. -/
theorem c10_no_line_at_ffff (bus : Bus) (startAddr : Nat) (m : List (Nat × String))
    (h : disassemble bus startAddr 0xFFFF = some m) :
    ∀ p ∈ m, p.1 ≠ 0xFFFF :=
  disasmLoop_keys bus 0xFFFF 65537 startAddr [] m (by simp) h

/-- Witness for C10: on zeroed RAM, `disassemble(0xFFFD, 0xFFFF)` returns
lines keyed `0xFFFD` and `0xFFFE` only, and the theorem applies to the
first of them. -/
theorem c10_no_line_at_ffff_witness : ((0xFFFD, "XXX") : Nat × String).1 ≠ 0xFFFF :=
  c10_no_line_at_ffff Bus.new 0xFFFD [(0xFFFD, "XXX"), (0xFFFE, "XXX")] (by decide)
    (0xFFFD, "XXX") (by decide)

end Yane2
